import Mathlib

/-!
Verification of `check_git_dirs.py`, a utility that scans a directory tree for
git working copies and classifies each as clean, needing a push, or having
unstaged changes.

The embedding is shallow: the outputs of the two external status queries
(`git status -s` and `git status`) are fields of a `Repo` record, the
filesystem facts consumed by `scan_all_git_repos` (root existence, discovered
repositories, ignore names) are fields of a `ScanEnv` record, and Python
exceptions are modelled with `Except String`.  Python string primitives used by
the source (`str.splitlines`, `str.replace`, the `in` substring test) are
reimplemented below over `List Char` with structural recursion so that all
definitions evaluate by `decide`/`rfl`.
-/

namespace CheckGitDirs

/-- Split a character list at newline characters, keeping empty pieces.
`splitOnNewline` always returns at least one piece. -/
def splitOnNewline : List Char → List (List Char)
  | [] => [[]]
  | c :: rest =>
    if c = '\n' then [] :: splitOnNewline rest
    else
      match splitOnNewline rest with
      | [] => [[c]]
      | l :: ls => (c :: l) :: ls

/-- Python `str.splitlines` restricted to `\n` line boundaries (the only
boundary relevant to the decoded `git status` output): split at every newline
and drop the trailing empty piece, so `"".splitlines() = []` and
`"a\n".splitlines() = ["a"]`. -/
def pySplitlines (s : String) : List String :=
  let parts := (splitOnNewline s.toList).map String.mk
  if parts.getLast? = some "" then parts.dropLast else parts

/-- Whether `needle` occurs as a contiguous run inside the second list,
modelling Python's `needle in haystack` substring test. -/
def subOccurs (needle : List Char) : List Char → Bool
  | [] => needle.isEmpty
  | c :: rest => needle.isPrefixOf (c :: rest) || subOccurs needle rest

/-- Python `needle in haystack` on strings. -/
def containsSub (haystack needle : String) : Bool :=
  subOccurs needle.toList haystack.toList

/-- Left-to-right non-overlapping replacement of `needle` by `repl`, the
semantics of Python `str.replace`.  The `Nat` argument is fuel bounding the
number of scanning steps; callers pass the haystack length, which always
suffices because every step consumes at least one character. -/
def replaceAllAux (needle repl : List Char) : Nat → List Char → List Char
  | _, [] => []
  | 0, l => l
  | Nat.succ fuel, c :: rest =>
    if !needle.isEmpty && needle.isPrefixOf (c :: rest) then
      repl ++ replaceAllAux needle repl fuel (List.drop (needle.length - 1) rest)
    else
      c :: replaceAllAux needle repl fuel rest

/-- Python `s.replace(needle, repl)`. -/
def pyReplace (s needle repl : String) : String :=
  String.mk (replaceAllAux needle.toList repl.toList s.toList.length s.toList)

/-- Embedding of `add_branch_label` (src/check_git_dirs.py lines 13-25).  When
`record_branches` is set the source evaluates `git_status.splitlines()[0]`,
which raises `IndexError` when the status text has no lines; this is modelled
with `Except.error`.  The source then calls `.replace("On branch ", "")` on
that first line, which removes every occurrence of the pattern, and appends
the result to the message after a separator. -/
def add_branch_label (record_branches : Bool) (git_status : String)
    (output_message : String) : Except String String :=
  if record_branches then
    match pySplitlines git_status with
    | [] => Except.error "IndexError: list index out of range"
    | first :: _ =>
      Except.ok (output_message ++ " - " ++ pyReplace first "On branch " "")
  else
    Except.ok output_message

/-- A discovered repository directory, carrying its filesystem identity and the
two textual snapshots the external status tool would produce for it: `path` is
the directory (the `git_dir` value in the source), `name` its final path
component (`pathlib.Path.name`), `shortStatus` the decoded output of
`git status -s` and `fullStatus` the decoded output of `git status`. -/
structure Repo where
  path : String
  name : String
  shortStatus : String
  fullStatus : String
deriving DecidableEq

/-- The three mutually exclusive repository states of the spec. -/
inductive Classification
  | Clean
  | NeedsPush
  | HasUnstagedChanges
deriving DecidableEq

/-- The classification encoded by the `(is_okay, requires_push)` boolean pair
returned by `process_git_dir`, read off in the order the aggregation loop in
`scan_all_git_repos` tests them: `requires_push` first, then `is_okay`. -/
def classificationOf (is_okay requires_push : Bool) : Classification :=
  if requires_push then Classification.NeedsPush
  else if is_okay then Classification.Clean
  else Classification.HasUnstagedChanges

/-- Embedding of `filter_ignored_dirs` (src/check_git_dirs.py lines 52-64):
two list comprehensions over the same input, one keeping directories whose
name is in `ignore_names`, one keeping the rest; the kept directories come
first in the returned pair. -/
def filter_ignored_dirs (git_dirs : List Repo) (ignore_names : List String) :
    List Repo × List Repo :=
  let ignore_dirs := git_dirs.filter (fun x => ignore_names.contains x.name)
  let kept := git_dirs.filter (fun x => !(ignore_names.contains x.name))
  (kept, ignore_dirs)

/-- Embedding of `process_git_dir` (src/check_git_dirs.py lines 67-87).  The
two `check_output` calls are read from the `Repo` record.  `rev_parse` is the
line list of the short status; an empty line list with the marker substring in
the full status yields the requires-push result `(·, false, true)`, an empty
line list without it the okay result `(·, true, false)`, and a non-empty line
list the unstaged result `(·, false, false)`.  An exception raised inside
`add_branch_label` propagates. -/
def process_git_dir (repo : Repo) (record_branches : Bool) :
    Except String (String × Bool × Bool) :=
  let rev_parse := pySplitlines repo.shortStatus
  let git_status := repo.fullStatus
  let output_message := "\x1B[1;34m" ++ repo.path ++ ": "
  if rev_parse.length = 0 then
    if containsSub git_status "Your branch is ahead" then
      (add_branch_label record_branches git_status
          (output_message ++ "\x1B[1;33m - Requires push")).map
        (fun m => (m, false, true))
    else
      (add_branch_label record_branches git_status
          (output_message ++ "\x1B[1;32m ✓")).map
        (fun m => (m, true, false))
  else
    (add_branch_label record_branches git_status
        (output_message ++ "\x1B[1;31m ✗ Unstaged changes")).map
      (fun m => (m, false, false))

/-- The filesystem facts `scan_all_git_repos` consumes: `root` the root
directory path (used in the error message), `rootExists` the result of
`directory.exists()`, `gitDirs` the result of `find_git_dirs(directory)` and
`ignoreNames` the result of `read_check_ignore(directory)`. -/
structure ScanEnv where
  root : String
  rootExists : Bool
  gitDirs : List Repo
  ignoreNames : List String

/-- The aggregate returned by `scan_all_git_repos`, in the source's tuple
order: `(total_unstaged, total_push, total_okay, unstaged_list, push_list)`. -/
structure ScanResult where
  total_unstaged : Nat
  total_push : Nat
  total_okay : Nat
  unstaged_list : List String
  push_list : List String
deriving DecidableEq

/-- The per-repository aggregation loop of `scan_all_git_repos`
(src/check_git_dirs.py lines 114-124): sequential, stopping with the
exception if a repository's processing raises. -/
def scanLoop (record_branches : Bool) :
    List Repo → ScanResult → Except String ScanResult
  | [], acc => Except.ok acc
  | git_dir :: rest, acc =>
    match process_git_dir git_dir record_branches with
    | Except.error e => Except.error e
    | Except.ok (_, is_okay, requires_push) =>
      if requires_push then
        scanLoop record_branches rest
          ⟨acc.total_unstaged, acc.total_push + 1, acc.total_okay,
            acc.unstaged_list, acc.push_list ++ [git_dir.path]⟩
      else if is_okay then
        scanLoop record_branches rest
          ⟨acc.total_unstaged, acc.total_push, acc.total_okay + 1,
            acc.unstaged_list, acc.push_list⟩
      else
        scanLoop record_branches rest
          ⟨acc.total_unstaged + 1, acc.total_push, acc.total_okay,
            acc.unstaged_list ++ [git_dir.path], acc.push_list⟩

/-- Embedding of `scan_all_git_repos` (src/check_git_dirs.py lines 90-126):
raise `IOError` when the root does not exist, otherwise drop the ignored
directories and run the aggregation loop from zeroed counters and empty
lists. -/
def scan_all_git_repos (env : ScanEnv) (record_branches : Bool) :
    Except String ScanResult :=
  if env.rootExists = false then
    Except.error ("Directory does not exist at " ++ env.root)
  else
    scanLoop record_branches
      (filter_ignored_dirs env.gitDirs env.ignoreNames).1
      ⟨0, 0, 0, [], []⟩

/-- The branch name as the spec words it (spec section 4.1 step 4): the first
line of the full status report with the leading "On branch " stripped when
present — the rest of the line kept verbatim.  This definition follows the
SPEC, not the source, and exists only to be compared against
`add_branch_label`. -/
def branchNameSpec (git_status : String) : String :=
  match pySplitlines git_status with
  | [] => ""
  | first :: _ =>
    if ("On branch ".toList).isPrefixOf first.toList then
      String.mk (first.toList.drop ("On branch ".toList).length)
    else first

/-! Concrete repositories and environments used by witnesses. -/

/-- A clean repository: empty short status, no ahead marker. -/
def repoClean : Repo :=
  ⟨"root/A", "A", "", "On branch main\nnothing to commit, working tree clean\n"⟩

/-- A repository needing a push: empty short status, ahead marker present. -/
def repoPush : Repo :=
  ⟨"root/B", "B", "",
    "On branch main\nYour branch is ahead of origin/main by 2 commits.\n"⟩

/-- A repository with unstaged changes that is also ahead of its upstream. -/
def repoUnstaged : Repo :=
  ⟨"root/C", "C", "M file.txt\n",
    "On branch dev\nYour branch is ahead of origin/dev by 1 commit.\n"⟩

/-- A repository whose name is on the ignore list of `envMain`. -/
def repoIgnored : Repo := ⟨"root/D", "D", "M other.txt\n", "On branch main\n"⟩

/-- A scan environment holding the four repositories above, ignoring "D". -/
def envMain : ScanEnv :=
  ⟨"root", true, [repoClean, repoPush, repoUnstaged, repoIgnored], ["D"]⟩

/-- Inversion for `Except.map` producing a success. -/
theorem except_map_ok {ε α β : Type} {f : α → β} {e : Except ε α} {y : β}
    (h : e.map f = Except.ok y) : ∃ x, e = Except.ok x ∧ y = f x := by
  cases e with
  | error a => simp [Except.map] at h
  | ok a => exact ⟨a, rfl, by simpa [Except.map] using h.symm⟩

/-- C10: with branch recording disabled, `add_branch_label` returns the output
message unchanged, and the result is the same whatever the status text, so a
malformed or empty full report can neither change nor fail the labelling. -/
theorem add_branch_label_disabled (git_status other output_message : String) :
    add_branch_label false git_status output_message = Except.ok output_message
    ∧ add_branch_label false git_status output_message
      = add_branch_label false other output_message :=
  ⟨rfl, rfl⟩

/-- C4: when the root directory does not exist the scan fails with the
IOError message, whatever the discovered repositories and ignore names; the
error value does not depend on `env.gitDirs`, so no repository status is ever
consulted. -/
theorem scan_missing_root (env : ScanEnv) (b : Bool)
    (h : env.rootExists = false) :
    scan_all_git_repos env b
      = Except.error ("Directory does not exist at " ++ env.root) := by
  unfold scan_all_git_repos
  rw [h, if_pos rfl]

/-- Witness for `scan_missing_root` at a concrete environment that does carry
repositories, none of which is touched. -/
theorem scan_missing_root_witness :
    ScanEnv.rootExists ⟨"nowhere", false, [repoUnstaged], []⟩ = false
    ∧ scan_all_git_repos ⟨"nowhere", false, [repoUnstaged], []⟩ true
      = Except.error ("Directory does not exist at "
          ++ ScanEnv.root ⟨"nowhere", false, [repoUnstaged], []⟩) :=
  ⟨rfl, scan_missing_root ⟨"nowhere", false, [repoUnstaged], []⟩ true rfl⟩

/-- C1: a repository whose short status splits into zero lines classifies
`NeedsPush` exactly when the full report contains "Your branch is ahead", and
`Clean` otherwise, whenever processing returns. -/
theorem clean_or_push_classification (repo : Repo) (b : Bool)
    (m : String) (o p : Bool)
    (hshort : pySplitlines repo.shortStatus = [])
    (hrun : process_git_dir repo b = Except.ok (m, o, p)) :
    classificationOf o p =
      (if containsSub repo.fullStatus "Your branch is ahead" then
        Classification.NeedsPush
      else Classification.Clean) := by
  simp only [process_git_dir, hshort, List.length_nil, if_pos] at hrun
  by_cases hc : containsSub repo.fullStatus "Your branch is ahead" = true
  · rw [if_pos hc] at hrun
    obtain ⟨x, -, hy⟩ := except_map_ok hrun
    obtain ⟨-, ho, hp⟩ : m = x ∧ o = false ∧ p = true := by
      simpa using hy
    subst ho; subst hp
    simp [classificationOf, hc]
  · rw [if_neg hc] at hrun
    obtain ⟨x, -, hy⟩ := except_map_ok hrun
    obtain ⟨-, ho, hp⟩ : m = x ∧ o = true ∧ p = false := by
      simpa using hy
    subst ho; subst hp
    simp [classificationOf, hc]

/-- Witness for `clean_or_push_classification` on a concrete repository with
the ahead marker present. -/
theorem clean_or_push_classification_witness :
    pySplitlines repoPush.shortStatus = []
    ∧ process_git_dir repoPush false
        = Except.ok ("\x1B[1;34mroot/B: \x1B[1;33m - Requires push", false, true)
    ∧ classificationOf false true
        = (if containsSub repoPush.fullStatus "Your branch is ahead" then
            Classification.NeedsPush
          else Classification.Clean) :=
  ⟨rfl, rfl, clean_or_push_classification repoPush false _ false true rfl rfl⟩

/-- C2: a repository whose short status splits into one or more lines
classifies `HasUnstagedChanges` whenever processing returns, whatever the full
report says about being ahead. -/
theorem unstaged_classification (repo : Repo) (b : Bool)
    (m : String) (o p : Bool)
    (hshort : pySplitlines repo.shortStatus ≠ [])
    (hrun : process_git_dir repo b = Except.ok (m, o, p)) :
    classificationOf o p = Classification.HasUnstagedChanges := by
  have hlen : ¬((pySplitlines repo.shortStatus).length = 0) := by
    simpa [List.length_eq_zero] using hshort
  simp only [process_git_dir, if_neg hlen] at hrun
  obtain ⟨x, -, hy⟩ := except_map_ok hrun
  obtain ⟨-, ho, hp⟩ : m = x ∧ o = false ∧ p = false := by
    simpa using hy
  subst ho; subst hp
  simp [classificationOf]

/-- Witness for `unstaged_classification` on a concrete repository whose full
report also contains "Your branch is ahead": unstaged wins. -/
theorem unstaged_classification_witness :
    pySplitlines repoUnstaged.shortStatus ≠ []
    ∧ containsSub repoUnstaged.fullStatus "Your branch is ahead" = true
    ∧ process_git_dir repoUnstaged false
        = Except.ok
            ("\x1B[1;34mroot/C: \x1B[1;31m ✗ Unstaged changes", false, false)
    ∧ classificationOf false false = Classification.HasUnstagedChanges :=
  ⟨by decide, rfl, rfl,
    unstaged_classification repoUnstaged false _ false false (by decide) rfl⟩

/-- C6 counterexample: the claim says the branch-label suffix equals the first
line of the full report with the "On branch " prefix stripped and the rest
kept verbatim.  On a first line in which the pattern occurs twice the source's
`str.replace` removes both occurrences, so the suffix differs from the
spec-modelled `branchNameSpec` value: the code yields "msg - main" while the
claim demands "msg - On branch main". -/
theorem branch_label_spec_counterexample :
    add_branch_label true "On branch On branch main\nnothing to commit\n" "msg"
      ≠ Except.ok ("msg" ++ " - "
          ++ branchNameSpec "On branch On branch main\nnothing to commit\n") := by
  intro h
  have h1 : Except.ok ("msg - main" : String)
      = Except.ok ("msg" ++ " - " ++ ("On branch main" : String)) := h
  exact absurd (Except.ok.inj h1) (by decide)

/-- C6 amended: the branch-label suffix appears iff branch recording is
enabled; when enabled and the full report has a first line, the suffix equals
that first line with every occurrence of "On branch " removed (Python
`str.replace` semantics), not merely the leading prefix stripped; when
disabled the message is returned unchanged. -/
theorem add_branch_label_behaviour (st msg first : String) (rest : List String)
    (hsplit : pySplitlines st = first :: rest) :
    add_branch_label true st msg
      = Except.ok (msg ++ " - " ++ pyReplace first "On branch " "")
    ∧ add_branch_label false st msg = Except.ok msg := by
  constructor
  · simp [add_branch_label, hsplit]
  · rfl

/-- Witness for `add_branch_label_behaviour` on an ordinary two-line status
report. -/
theorem add_branch_label_behaviour_witness :
    pySplitlines "On branch dev\nnothing to commit\n"
      = "On branch dev" :: ["nothing to commit"]
    ∧ (add_branch_label true "On branch dev\nnothing to commit\n" "m"
        = Except.ok ("m" ++ " - " ++ pyReplace "On branch dev" "On branch " "")
      ∧ add_branch_label false "On branch dev\nnothing to commit\n" "m"
        = Except.ok "m") :=
  ⟨rfl, add_branch_label_behaviour "On branch dev\nnothing to commit\n" "m"
    "On branch dev" ["nothing to commit"] rfl⟩

/-- C7 counterexample: processing a repository whose full status report is
empty with branch recording enabled raises (IndexError from
`git_status.splitlines()[0]`) instead of degrading gracefully. -/
theorem branch_crash_counterexample :
    process_git_dir ⟨"root/E", "E", "", ""⟩ true
      = Except.error "IndexError: list index out of range" := rfl

/-- C7 amended: whenever the full status report has at least one line —
including a first line that lacks the "On branch " prefix entirely —
processing with branch recording enabled returns normally; only a report with
no first line raises. -/
theorem process_no_crash_nonempty_status (repo : Repo) (first : String)
    (rest : List String)
    (hsplit : pySplitlines repo.fullStatus = first :: rest) :
    ∃ out, process_git_dir repo true = Except.ok out := by
  have hlab : ∀ m : String, add_branch_label true repo.fullStatus m
      = Except.ok (m ++ " - " ++ pyReplace first "On branch " "") := by
    intro m
    simp [add_branch_label, hsplit]
  simp only [process_git_dir]
  by_cases h0 : (pySplitlines repo.shortStatus).length = 0
  · by_cases hc : containsSub repo.fullStatus "Your branch is ahead" = true
    · rw [if_pos h0, if_pos hc, hlab]
      exact ⟨_, rfl⟩
    · rw [if_pos h0, if_neg hc, hlab]
      exact ⟨_, rfl⟩
  · rw [if_neg h0, hlab]
    exact ⟨_, rfl⟩

/-- Witness for `process_no_crash_nonempty_status` on a repository whose full
report's first line lacks the "On branch " prefix. -/
theorem process_no_crash_nonempty_status_witness :
    pySplitlines (Repo.fullStatus ⟨"root/F", "F", "", "HEAD detached at abc\n"⟩)
      = "HEAD detached at abc" :: []
    ∧ ∃ out, process_git_dir ⟨"root/F", "F", "", "HEAD detached at abc\n"⟩ true
        = Except.ok out :=
  ⟨rfl, process_no_crash_nonempty_status ⟨"root/F", "F", "", "HEAD detached at abc\n"⟩
    "HEAD detached at abc" [] rfl⟩

/-- Helper: the aggregation loop adds exactly one to the three counters
together for every repository it processes. -/
theorem scanLoop_counts (b : Bool) (l : List Repo) (acc res : ScanResult)
    (h : scanLoop b l acc = Except.ok res) :
    res.total_okay + res.total_push + res.total_unstaged
      = acc.total_okay + acc.total_push + acc.total_unstaged + l.length := by
  induction l generalizing acc with
  | nil =>
    simp only [scanLoop, Except.ok.injEq] at h
    subst h
    simp
  | cons d rest ih =>
    simp only [scanLoop] at h
    cases hp : process_git_dir d b with
    | error e =>
      simp only [hp] at h
      exact absurd h (by simp)
    | ok t =>
      obtain ⟨m, o, p⟩ := t
      simp only [hp] at h
      cases p with
      | true =>
        rw [if_pos rfl] at h
        have hs := ih _ h
        simp at hs ⊢
        omega
      | false =>
        cases o with
        | true =>
          rw [if_neg Bool.false_ne_true, if_pos rfl] at h
          have hs := ih _ h
          simp at hs ⊢
          omega
        | false =>
          rw [if_neg Bool.false_ne_true, if_neg Bool.false_ne_true] at h
          have hs := ih _ h
          simp at hs ⊢
          omega

/-- Helper: the loop keeps the push counter equal to the push-list length and
the unstaged counter equal to the unstaged-list length. -/
theorem scanLoop_lists (b : Bool) (l : List Repo) (acc res : ScanResult)
    (h : scanLoop b l acc = Except.ok res)
    (hpl : acc.total_push = acc.push_list.length)
    (hul : acc.total_unstaged = acc.unstaged_list.length) :
    res.total_push = res.push_list.length
    ∧ res.total_unstaged = res.unstaged_list.length := by
  induction l generalizing acc with
  | nil =>
    simp only [scanLoop, Except.ok.injEq] at h
    subst h
    exact ⟨hpl, hul⟩
  | cons d rest ih =>
    simp only [scanLoop] at h
    cases hp : process_git_dir d b with
    | error e =>
      simp only [hp] at h
      exact absurd h (by simp)
    | ok t =>
      obtain ⟨m, o, p⟩ := t
      simp only [hp] at h
      cases p with
      | true =>
        rw [if_pos rfl] at h
        exact ih _ h (by simp [hpl]) (by simpa using hul)
      | false =>
        cases o with
        | true =>
          rw [if_neg Bool.false_ne_true, if_pos rfl] at h
          exact ih _ h (by simpa using hpl) (by simpa using hul)
        | false =>
          rw [if_neg Bool.false_ne_true, if_neg Bool.false_ne_true] at h
          exact ih _ h (by simpa using hpl) (by simp [hul])

/-- C3: when the scan returns, the three counters sum to the number of
non-ignored repository directories found; every processed repository lands in
exactly one of the three branches of the loop. -/
theorem scan_counts_partition (env : ScanEnv) (b : Bool) (res : ScanResult)
    (h : scan_all_git_repos env b = Except.ok res) :
    res.total_okay + res.total_push + res.total_unstaged
      = (filter_ignored_dirs env.gitDirs env.ignoreNames).1.length := by
  unfold scan_all_git_repos at h
  by_cases hex : env.rootExists = false
  · rw [if_pos hex] at h
    exact absurd h (by simp)
  · rw [if_neg hex] at h
    simpa using scanLoop_counts b _ _ _ h

/-- Witness for `scan_counts_partition`: the spec's worked example, one clean,
one push-needing, one unstaged and one ignored repository. -/
theorem scan_counts_partition_witness :
    scan_all_git_repos envMain false
      = Except.ok ⟨1, 1, 1, ["root/C"], ["root/B"]⟩
    ∧ ScanResult.total_okay ⟨1, 1, 1, ["root/C"], ["root/B"]⟩
        + ScanResult.total_push ⟨1, 1, 1, ["root/C"], ["root/B"]⟩
        + ScanResult.total_unstaged ⟨1, 1, 1, ["root/C"], ["root/B"]⟩
      = (filter_ignored_dirs envMain.gitDirs envMain.ignoreNames).1.length :=
  ⟨rfl, scan_counts_partition envMain false ⟨1, 1, 1, ["root/C"], ["root/B"]⟩ rfl⟩

/-- C8: when the scan returns, the push counter equals the push-list length,
the unstaged counter the unstaged-list length, and together with the okay
counter they account for every processed repository — so clean repositories
are counted yet appear in neither list. -/
theorem scan_list_lengths (env : ScanEnv) (b : Bool) (res : ScanResult)
    (h : scan_all_git_repos env b = Except.ok res) :
    res.total_push = res.push_list.length
    ∧ res.total_unstaged = res.unstaged_list.length
    ∧ res.total_okay + res.push_list.length + res.unstaged_list.length
        = (filter_ignored_dirs env.gitDirs env.ignoreNames).1.length := by
  unfold scan_all_git_repos at h
  by_cases hex : env.rootExists = false
  · rw [if_pos hex] at h
    exact absurd h (by simp)
  · rw [if_neg hex] at h
    obtain ⟨h1, h2⟩ := scanLoop_lists b _ _ _ h rfl rfl
    have h3 := scanLoop_counts b _ _ _ h
    exact ⟨h1, h2, by simp only [] at h3; omega⟩

/-- Witness for `scan_list_lengths` on the same worked example. -/
theorem scan_list_lengths_witness :
    scan_all_git_repos envMain true
      = Except.ok ⟨1, 1, 1, ["root/C"], ["root/B"]⟩
    ∧ ScanResult.total_push ⟨1, 1, 1, ["root/C"], ["root/B"]⟩
        = (ScanResult.push_list ⟨1, 1, 1, ["root/C"], ["root/B"]⟩).length
    ∧ ScanResult.total_unstaged ⟨1, 1, 1, ["root/C"], ["root/B"]⟩
        = (ScanResult.unstaged_list ⟨1, 1, 1, ["root/C"], ["root/B"]⟩).length
    ∧ ScanResult.total_okay ⟨1, 1, 1, ["root/C"], ["root/B"]⟩
        + (ScanResult.push_list ⟨1, 1, 1, ["root/C"], ["root/B"]⟩).length
        + (ScanResult.unstaged_list ⟨1, 1, 1, ["root/C"], ["root/B"]⟩).length
      = (filter_ignored_dirs envMain.gitDirs envMain.ignoreNames).1.length :=
  ⟨rfl, scan_list_lengths envMain true ⟨1, 1, 1, ["root/C"], ["root/B"]⟩ rfl⟩

/-- C5: a discovered directory whose name is on the ignore list can be removed
from the discovery result without changing the scan outcome at all — its
status snapshots are never consulted and it reaches no counter and no list. -/
theorem scan_skips_ignored (env : ScanEnv) (b : Bool) (r : Repo)
    (pre post : List Repo)
    (hname : env.ignoreNames.contains r.name = true)
    (hdirs : env.gitDirs = pre ++ r :: post) :
    scan_all_git_repos env b
      = scan_all_git_repos
          ⟨env.root, env.rootExists, pre ++ post, env.ignoreNames⟩ b := by
  unfold scan_all_git_repos
  have hmem : r.name ∈ env.ignoreNames := by simpa using hname
  have hkept : (filter_ignored_dirs env.gitDirs env.ignoreNames).1
      = (filter_ignored_dirs (pre ++ post) env.ignoreNames).1 := by
    rw [hdirs]
    simp [filter_ignored_dirs, List.filter_append, List.filter_cons, hmem]
  rw [hkept]

/-- Witness for `scan_skips_ignored`: dropping the ignored repository "D" from
`envMain` leaves the scan result unchanged. -/
theorem scan_skips_ignored_witness :
    (ScanEnv.ignoreNames envMain).contains repoIgnored.name = true
    ∧ ScanEnv.gitDirs envMain
        = [repoClean, repoPush, repoUnstaged] ++ repoIgnored :: []
    ∧ scan_all_git_repos envMain false
      = scan_all_git_repos
          ⟨envMain.root, envMain.rootExists,
            [repoClean, repoPush, repoUnstaged] ++ [], envMain.ignoreNames⟩
          false :=
  ⟨rfl, rfl,
    scan_skips_ignored envMain false repoIgnored
      [repoClean, repoPush, repoUnstaged] [] rfl rfl⟩

/-- Helper: filtering by a predicate and by its negation splits the
multiplicity of every element. -/
theorem count_filter_split (p : Repo → Bool) (l : List Repo) (x : Repo) :
    (l.filter (fun y => !(p y))).count x + (l.filter p).count x = l.count x := by
  induction l with
  | nil => simp
  | cons a rest ih =>
    rcases hpa : p a with _ | _ <;> rcases hax : a == x with _ | _ <;>
      simp [List.filter_cons, hpa, List.count_cons, hax] <;> omega

/-- C9: `filter_ignored_dirs` partitions its input: both returned lists are
order-preserving sublists of the input, the multiplicities of every input
directory split between the two lists, and an input directory lies in the kept
list exactly when its name is off the ignore list and in the ignored list
exactly when its name is on it. -/
theorem filter_ignored_dirs_partition (l : List Repo) (ign : List String)
    (x : Repo) (hx : x ∈ l) :
    (filter_ignored_dirs l ign).1.Sublist l
    ∧ (filter_ignored_dirs l ign).2.Sublist l
    ∧ (filter_ignored_dirs l ign).1.count x
        + (filter_ignored_dirs l ign).2.count x = l.count x
    ∧ (x ∈ (filter_ignored_dirs l ign).1 ↔ ign.contains x.name = false)
    ∧ (x ∈ (filter_ignored_dirs l ign).2 ↔ ign.contains x.name = true) := by
  refine ⟨List.filter_sublist l, List.filter_sublist l, ?_, ?_, ?_⟩
  · show (l.filter (fun y => !(ign.contains y.name))).count x
        + (l.filter (fun y => ign.contains y.name)).count x = l.count x
    exact count_filter_split (fun y => ign.contains y.name) l x
  · simp [filter_ignored_dirs, List.mem_filter, hx]
  · simp [filter_ignored_dirs, List.mem_filter, hx]

/-- Witness for `filter_ignored_dirs_partition` on a two-element input with
the ignored repository as the probed element. -/
theorem filter_ignored_dirs_partition_witness :
    repoIgnored ∈ ([repoClean, repoIgnored] : List Repo)
    ∧ ((filter_ignored_dirs [repoClean, repoIgnored] ["D"]).1.Sublist
          [repoClean, repoIgnored]
      ∧ (filter_ignored_dirs [repoClean, repoIgnored] ["D"]).2.Sublist
          [repoClean, repoIgnored]
      ∧ (filter_ignored_dirs [repoClean, repoIgnored] ["D"]).1.count repoIgnored
          + (filter_ignored_dirs [repoClean, repoIgnored] ["D"]).2.count repoIgnored
          = ([repoClean, repoIgnored] : List Repo).count repoIgnored
      ∧ (repoIgnored ∈ (filter_ignored_dirs [repoClean, repoIgnored] ["D"]).1
          ↔ (["D"] : List String).contains repoIgnored.name = false)
      ∧ (repoIgnored ∈ (filter_ignored_dirs [repoClean, repoIgnored] ["D"]).2
          ↔ (["D"] : List String).contains repoIgnored.name = true)) :=
  ⟨by decide,
    filter_ignored_dirs_partition [repoClean, repoIgnored] ["D"] repoIgnored
      (by decide)⟩

end CheckGitDirs
